import Mathlib

/-!
Shallow embedding of the Service nodetask from
upup/pkg/fi/nodeup/nodetasks/service.go and the parts of its
environment that its control flow depends on.

Conventions of the embedding:
* Machine state (filesystem reads, stat results, the systemd property
  query, wall-clock parsing of the systemd timestamp format) is packaged
  in a SystemTarget record of pure functions; file modification times
  and parsed timestamps are natural numbers, with 0 playing the role of
  the Go zero time (time.Time.IsZero).
* Fallible Go calls are Except or Option results; os.ReadFile has the
  three-way outcome (content, not-exist, other error) that Find branches
  on.
* RenderLocal is modelled as the ordered list of outwardly visible
  actions (unit-file write, daemon-reload, systemctl restart/stop,
  enable, disable) it performs, paired with an optional error; effects
  performed before an early error return are kept. Failures of the
  shell commands themselves are not modelled (they only truncate the
  run), while the stat / status-query / timestamp-parse outcomes are,
  because control flow branches on them.
* Go string helpers (strings.Split, strings.SplitN with limit 2,
  strings.TrimSpace) are implemented structurally over the character
  list of the string so that every definition evaluates inside the
  kernel. TrimSpace trims the ASCII whitespace that actually occurs in
  unit files.
-/

namespace Nodetasks

/-- Go fi.ValueOf for an optional Bool: nil yields false. -/
def valueOfB (o : Option Bool) : Bool := o.getD false

/-- Go fi.ValueOf for an optional String: nil yields the empty string. -/
def valueOfS (o : Option String) : String := o.getD ""

/-- Go path.Join restricted to the already-clean, non-empty segments service.go joins. -/
def pathJoin (a b : String) : String := a ++ "/" ++ b

/-- Constant debianSystemdSystemPath from service.go. -/
def debianSystemdSystemPath : String := "/lib/systemd/system"

/-- Constant centosSystemdSystemPath from service.go. -/
def centosSystemdSystemPath : String := "/usr/lib/systemd/system"

/-- Constant flatcarSystemdSystemPath from service.go. -/
def flatcarSystemdSystemPath : String := "/etc/systemd/system"

/-- Constant containerosSystemdSystemPath from service.go. -/
def containerosSystemdSystemPath : String := "/etc/systemd/system"

/-- Constant kubeletService from service.go. -/
def kubeletService : String := "kubelet.service"

/-- The Service task struct from service.go; every desired field is tri-state. -/
structure Service where
  Name : String
  Definition : Option String
  Running : Option Bool
  Enabled : Option Bool
  ManageState : Option Bool
  SmartRestart : Option Bool
deriving DecidableEq

/-- The distribution families distinguished by systemdSystemPath. Distribution
detection itself (util/pkg/distributions.FindDistribution) is outside the
sources; this type records only its outcome: one of the four families the
path selection recognizes, a detection failure, or some other detected
distribution. -/
inductive Distro where
  | debianFamily
  | rhelFamily
  | flatcar
  | containerOS
  | unknown
  | unsupported (name : String)
deriving DecidableEq

/-- Service.systemdSystemPath from service.go: the if-chain selecting the
systemd unit directory by distribution family. -/
def systemdSystemPathFor : Distro → Except String String
  | .debianFamily => .ok debianSystemdSystemPath
  | .rhelFamily => .ok centosSystemdSystemPath
  | .flatcar => .ok flatcarSystemdSystemPath
  | .containerOS => .ok containerosSystemdSystemPath
  | .unknown => .error "unknown or unsupported distro"
  | .unsupported _ => .error "unsupported systemd system"

/-- Outcome of os.ReadFile as branched on by Service.Find: content, the
os.IsNotExist error, or any other read error. -/
inductive ReadResult where
  | ok (content : String)
  | notExist
  | ioError (msg : String)
deriving DecidableEq

/-- The machine environment Service.Find and Service.RenderLocal consult. -/
structure SystemTarget where
  distro : Distro
  readFile : String → ReadResult
  systemdStatus : String → Except String (String → String)
  stat : String → Option Nat
  parseTime : String → Option Nat

/-- Outwardly visible action performed by Service.RenderLocal. -/
inductive Effect where
  | writeFile (path : String) (content : String)
  | daemonReload
  | systemctl (action : String) (service : String)
  | enable (service : String)
  | disable (service : String)
deriving DecidableEq

/-- Splitting a character list at every occurrence of the separator;
Go strings.Split with a one-character separator. -/
def splitChars (sep : Char) : List Char → List (List Char)
  | [] => [[]]
  | c :: rest =>
    match splitChars sep rest with
    | [] => [[c]]
    | h :: t => if c = sep then [] :: h :: t else (c :: h) :: t

/-- Go strings.Split with a one-character separator. -/
def goSplit (s : String) (sep : Char) : List String :=
  (splitChars sep s.data).map String.mk

/-- The ASCII whitespace recognized by the TrimSpace model. -/
def isGoSpace (c : Char) : Bool :=
  c == ' ' || c == '\t' || c == '\n' || c == '\r'

/-- Go strings.TrimSpace over the whitespace that occurs in unit files. -/
def goTrim (s : String) : String :=
  String.mk (((s.data.dropWhile isGoSpace).reverse.dropWhile isGoSpace).reverse)

/-- Split a character list at the first occurrence of the separator, if any. -/
def splitAtFirst (sep : Char) : List Char → Option (List Char × List Char)
  | [] => none
  | c :: rest =>
    if c = sep then some ([], rest)
    else
      match splitAtFirst sep rest with
      | none => none
      | some (a, b) => some (c :: a, b)

/-- Go strings.SplitN(s, sep, 2) with a one-character separator: at most one
split, at the first occurrence. -/
def goSplitN2 (s : String) (sep : Char) : List String :=
  match splitAtFirst sep s.data with
  | none => [s]
  | some (a, b) => [String.mk a, String.mk b]

/-- getSystemdDependencies from service.go: parse the unit definition and
collect the EnvironmentFile values and the first token of each ExecStart.
The Go function also returns an error value, which is always nil, so the
embedding returns just the list. -/
def getSystemdDependencies (_serviceName : String) (definition : String) : List String :=
  (goSplit definition '\n').foldl
    (fun dependencies line =>
      let line := goTrim line
      match goSplitN2 line '=' with
      | [t0, t1] =>
        let k := goTrim t0
        let v := goTrim t1
        if k = "EnvironmentFile" then
          dependencies ++ [v]
        else if k = "ExecStart" then
          dependencies ++ [(goSplitN2 v ' ').headD ""]
        else
          dependencies
      | _ => dependencies)
    []

/-- The ActiveState switch in Service.Find: active runs; failed and inactive
do not; anything else is treated as not running. -/
def runningOfActiveState (activeState : String) : Bool :=
  if activeState = "active" then true
  else if activeState = "failed" ∨ activeState = "inactive" then false
  else false

/-- The WantedBy switch in Service.Find: empty is disabled; the two known
target lists are enabled; anything else is treated as not enabled. -/
def enabledOfWantedBy (wantedBy : String) : Bool :=
  if wantedBy = "" then false
  else if wantedBy = "multi-user.target" ∨ wantedBy = "graphical.target multi-user.target" then true
  else false

/-- Service.Find from service.go. -/
def Service.Find (e : Service) (t : SystemTarget) : Except String Service :=
  match systemdSystemPathFor t.distro with
  | .error msg => .error msg
  | .ok systemdSystemPath =>
    let servicePath := pathJoin systemdSystemPath e.Name
    match t.readFile servicePath with
    | .ioError msg => .error ("Error reading systemd file " ++ servicePath ++ ": " ++ msg)
    | .notExist =>
      .ok { Name := e.Name
            Definition := none
            Running := some false
            Enabled := none
            ManageState := none
            SmartRestart := none }
    | .ok d =>
      match t.systemdStatus e.Name with
      | .error msg => .error msg
      | .ok properties =>
        .ok { Name := e.Name
              Definition := some d
              Running := some (runningOfActiveState (properties "ActiveState"))
              Enabled := some (enabledOfWantedBy (properties "WantedBy"))
              -- Avoid spurious changes
              ManageState := e.ManageState
              SmartRestart := e.SmartRestart }

/-- Service.InitDefaults from service.go: Running, SmartRestart and
ManageState default to true; Enabled defaults to the resulting Running. -/
def Service.InitDefaults (s : Service) : Service :=
  let s1 := if s.Running = none then { s with Running := some true } else s
  let s2 := if s1.SmartRestart = none then { s1 with SmartRestart := some true } else s1
  let s3 := if s2.ManageState = none then { s2 with ManageState := some true } else s2
  if s3.Enabled = none then { s3 with Enabled := s3.Running } else s3

/-- The concrete nodeup task kinds Service.GetDependencies switches over.
Each carries its map key; File additionally carries its BeforeServices
list, the only attribute the switch inspects. The unhandled constructor
stands for any task type reaching the default arm of the switch. -/
inductive NodeupTask where
  | package (name : String)
  | aptSource (name : String)
  | userTask (name : String)
  | groupTask (name : String)
  | chattr (name : String)
  | bindMount (name : String)
  | archive (name : String)
  | pfxTask (name : String)
  | updateEtcHostsTask (name : String)
  | service (name : String)
  | pullImageTask (name : String)
  | issueCert (name : String)
  | bootstrapClientTask (name : String)
  | kubeConfig (name : String)
  | loadImageTask (name : String)
  | file (name : String) (beforeServices : List String)
  | unhandled (name : String)
deriving DecidableEq

/-- The contribution of one task of the set to Service.GetDependencies:
the sublist the loop body appends for that task. -/
def Service.depsForTask (s : Service) (v : NodeupTask) : List NodeupTask :=
  match v with
  | .package _ | .aptSource _ | .userTask _ | .groupTask _ | .chattr _
  | .bindMount _ | .archive _ | .pfxTask _ | .updateEtcHostsTask _ => [v]
  | .service _ | .pullImageTask _ | .issueCert _
  | .bootstrapClientTask _ | .kubeConfig _ => []
  | .loadImageTask _ => if s.Name = kubeletService then [v] else []
  | .file _ beforeServices =>
    if beforeServices.length > 0 then
      beforeServices.foldl (fun deps b => deps ++ (if s.Name = b then [v] else [])) []
    else [v]
  | .unhandled _ => [v]

/-- Service.GetDependencies from service.go, over the task set as a list. -/
def Service.GetDependencies (s : Service) (tasks : List NodeupTask) : List NodeupTask :=
  tasks.foldl (fun deps v => deps ++ s.depsForTask v) []

/-- The dependency list of the smart-restart heuristic: the parsed unit-file
dependencies plus the systemd unit file itself (service.go RenderLocal). -/
def smartDependencies (serviceName definition systemdSystemPath : String) : List String :=
  getSystemdDependencies serviceName definition ++ [pathJoin systemdSystemPath serviceName]

/-- The newest-modification-time fold of RenderLocal: stat failures are
ignored, 0 is the zero time. -/
def newestMtime (t : SystemTarget) (dependencies : List String) : Nat :=
  dependencies.foldl
    (fun newest dependency =>
      match t.stat dependency with
      | none => newest
      | some modTime => if newest = 0 ∨ newest < modTime then modTime else newest)
    0

/-- The smart-restart block of Service.RenderLocal: given the action decided
so far, return the action after the heuristic, or the error that aborts the
run (status-query failure or unparsable ExecMainStartTimestamp). -/
def smartRestartAction (e : Service) (a : Option Service) (systemdSystemPath : String)
    (action : String) (t : SystemTarget) : Except String String :=
  if valueOfB e.ManageState = true ∧ valueOfB e.SmartRestart = true then
    let definition0 := valueOfS e.Definition
    let definition :=
      if definition0 = "" then
        match a with
        | some a0 => valueOfS a0.Definition
        | none => definition0
      else definition0
    if action = "" ∧ valueOfB e.Running = true ∧ definition ≠ "" then
      let dependencies := smartDependencies e.Name definition systemdSystemPath
      let newest := newestMtime t dependencies
      if newest ≠ 0 then
        match t.systemdStatus e.Name with
        | .error msg => .error msg
        | .ok properties =>
          let startedAt := properties "ExecMainStartTimestamp"
          if startedAt = "" then .ok action
          else
            match t.parseTime startedAt with
            | none => .error ("unable to parse service ExecMainStartTimestamp " ++ startedAt)
            | some startedAtTime =>
              if startedAtTime < newest then .ok "restart" else .ok action
      else .ok action
    else .ok action
  else .ok action

/-- Service.RenderLocal from service.go, as the ordered list of effects it
performs plus the error aborting it, if any. -/
def Service.RenderLocal (e : Service) (a : Option Service) (changes : Service)
    (t : SystemTarget) : List Effect × Option String :=
  match systemdSystemPathFor t.distro with
  | .error msg => ([], some msg)
  | .ok systemdSystemPath =>
    let serviceName := e.Name
    let action :=
      if changes.Running ≠ none ∧ valueOfB e.ManageState = true then
        if valueOfB e.Running = true then "restart" else "stop"
      else ""
    let defEffects :=
      if changes.Definition ≠ none then
        [Effect.writeFile (pathJoin systemdSystemPath serviceName) (valueOfS e.Definition),
         Effect.daemonReload]
      else []
    match smartRestartAction e a systemdSystemPath action t with
    | .error msg => (defEffects, some msg)
    | .ok action2 =>
      let actionEffects :=
        if action2 ≠ "" ∧ valueOfB e.ManageState = true then
          [Effect.systemctl action2 serviceName]
        else []
      let enableEffects :=
        if changes.Enabled ≠ none ∧ valueOfB e.ManageState = true then
          [if valueOfB e.Enabled = true then Effect.enable serviceName
           else Effect.disable serviceName]
        else []
      (defEffects ++ actionEffects ++ enableEffects, none)

/-- Whether an effect is a systemctl-class action (restart/stop, enable or disable). -/
def Effect.isSystemctlClass : Effect → Bool
  | .systemctl _ _ => true
  | .enable _ => true
  | .disable _ => true
  | _ => false

/-- Example systemd properties of a running, enabled service. -/
def exampleFoundProps : String → String := fun k =>
  if k = "ActiveState" then "active"
  else if k = "WantedBy" then "multi-user.target"
  else if k = "ExecMainStartTimestamp" then "ts" else ""

/-- Example target on a Debian-family machine where the kubelet unit file exists. -/
def exampleFoundTarget : SystemTarget :=
  { distro := .debianFamily
    readFile := fun p => if p = "/lib/systemd/system/kubelet.service" then .ok "defn" else .notExist
    systemdStatus := fun _ => .ok exampleFoundProps
    stat := fun _ => none
    parseTime := fun s => if s = "ts" then some 10 else none }

/-- Example properties carrying only the start timestamp. -/
def exampleSmartProps : String → String := fun k =>
  if k = "ExecMainStartTimestamp" then "ts" else ""

/-- Example target for the smart-restart heuristic: the parsed dependency
/bin/k is older than the recorded service start (5 versus 10) while the unit
file itself is newer (20). -/
def exampleSmartTarget : SystemTarget :=
  { distro := .debianFamily
    readFile := fun _ => .notExist
    systemdStatus := fun _ => .ok exampleSmartProps
    stat := fun p =>
      if p = "/bin/k" then some 5
      else if p = "/lib/systemd/system/kubelet.service" then some 20
      else none
    parseTime := fun s => if s = "ts" then some 10 else none }

/-- Example target on a Debian-family machine with no unit file and an empty status. -/
def exampleTarget : SystemTarget :=
  { distro := .debianFamily
    readFile := fun _ => .notExist
    systemdStatus := fun _ => .ok (fun _ => "")
    stat := fun _ => none
    parseTime := fun _ => none }

/-- Modelled from the spec: the change computation of the convergence engine
(fi.BuildChanges, reached through fi.NodeupDefaultDeltaRunMethod), which is
not among the sources. Per the spec, Changes has the same shape as the task;
each field is left unset when actual and desired agree on it and otherwise
carries the new (desired) value to apply. -/
def buildChanges (a e : Service) : Service :=
  { Name := e.Name
    Definition := if a.Definition = e.Definition then none else e.Definition
    Running := if a.Running = e.Running then none else e.Running
    Enabled := if a.Enabled = e.Enabled then none else e.Enabled
    ManageState := if a.ManageState = e.ManageState then none else e.ManageState
    SmartRestart := if a.SmartRestart = e.SmartRestart then none else e.SmartRestart }

/-! Helper lemmas -/

/-- Membership in a foldl that appends a per-element contribution. -/
theorem mem_foldl_append {α β : Type} (f : β → List α) (l : List β) (acc : List α) (x : α) :
    x ∈ l.foldl (fun acc b => acc ++ f b) acc ↔ x ∈ acc ∨ ∃ b, b ∈ l ∧ x ∈ f b := by
  induction l generalizing acc with
  | nil => simp
  | cons hd tl ih =>
    rw [List.foldl_cons, ih]
    simp only [List.mem_append, List.mem_cons]
    constructor
    · rintro ((h | h) | ⟨b, hb, hx⟩)
      · exact Or.inl h
      · exact Or.inr ⟨hd, Or.inl rfl, h⟩
      · exact Or.inr ⟨b, Or.inr hb, hx⟩
    · rintro (h | ⟨b, hb | hb, hx⟩)
      · exact Or.inl (Or.inl h)
      · exact Or.inl (Or.inr (hb ▸ hx))
      · exact Or.inr ⟨b, hb, hx⟩

/-- Everything a task contributes to GetDependencies is that task itself. -/
theorem mem_depsForTask {s : Service} {u x : NodeupTask} (h : x ∈ s.depsForTask u) : x = u := by
  cases u <;> simp only [Service.depsForTask] at h
  case package => simpa using h
  case aptSource => simpa using h
  case userTask => simpa using h
  case groupTask => simpa using h
  case chattr => simpa using h
  case bindMount => simpa using h
  case archive => simpa using h
  case pfxTask => simpa using h
  case updateEtcHostsTask => simpa using h
  case service => simp at h
  case pullImageTask => simp at h
  case issueCert => simp at h
  case bootstrapClientTask => simp at h
  case kubeConfig => simp at h
  case loadImageTask =>
    split at h
    · simpa using h
    · simp at h
  case file name bs =>
    split at h
    · rw [mem_foldl_append] at h
      rcases h with h | ⟨b, _, hx⟩
      · simp at h
      · split at hx
        · simpa using hx
        · simp at hx
    · simpa using h
  case unhandled => simpa using h

/-- Membership characterization of Service.GetDependencies. -/
theorem mem_GetDependencies {s : Service} {tasks : List NodeupTask} {x : NodeupTask} :
    x ∈ s.GetDependencies tasks ↔ ∃ u, u ∈ tasks ∧ x ∈ s.depsForTask u := by
  unfold Service.GetDependencies
  rw [mem_foldl_append]
  simp

/-! Claim theorems -/

/-- C5: after InitDefaults, an Enabled that was unset equals the (possibly
just-defaulted) Running value, and an Enabled that was already set is
unchanged. -/
theorem c5_initDefaults_enabled (s : Service) :
    (s.InitDefaults).Enabled =
      match s.Enabled with
      | none => (s.InitDefaults).Running
      | some b => some b := by
  rcases s with ⟨n, d, r, en, ms, sr⟩
  cases r <;> cases en <;> cases ms <;> cases sr <;>
    simp [Service.InitDefaults]

/-- C6 counterexample: the claim states that each of the four supported
families uses a different unit directory, but Flatcar and ContainerOS
resolve to the very same directory /etc/systemd/system. -/
theorem c6_counterexample :
    systemdSystemPathFor Distro.flatcar = systemdSystemPathFor Distro.containerOS ∧
    systemdSystemPathFor Distro.flatcar = Except.ok "/etc/systemd/system" :=
  ⟨rfl, rfl⟩

/-- C6 (amended): the unit directory is resolved by OS family; Debian and
RHEL each use their own distinct directory, while Flatcar and ContainerOS
both use /etc/systemd/system; any other detection outcome makes path
resolution, and with it Find and RenderLocal, fail with an error. -/
theorem c6_amended :
    systemdSystemPathFor Distro.debianFamily = Except.ok "/lib/systemd/system" ∧
    systemdSystemPathFor Distro.rhelFamily = Except.ok "/usr/lib/systemd/system" ∧
    systemdSystemPathFor Distro.flatcar = Except.ok "/etc/systemd/system" ∧
    systemdSystemPathFor Distro.containerOS = Except.ok "/etc/systemd/system" ∧
    debianSystemdSystemPath ≠ centosSystemdSystemPath ∧
    debianSystemdSystemPath ≠ flatcarSystemdSystemPath ∧
    centosSystemdSystemPath ≠ flatcarSystemdSystemPath ∧
    (∀ name, systemdSystemPathFor (Distro.unsupported name) =
      Except.error "unsupported systemd system") ∧
    (∀ (e : Service) (rf : String → ReadResult)
        (ss : String → Except String (String → String)) (st pt : String → Option Nat)
        (name : String),
      Service.Find e ⟨Distro.unsupported name, rf, ss, st, pt⟩ =
        Except.error "unsupported systemd system") ∧
    (∀ (e : Service) (a : Option Service) (changes : Service) (rf : String → ReadResult)
        (ss : String → Except String (String → String)) (st pt : String → Option Nat)
        (name : String),
      Service.RenderLocal e a changes ⟨Distro.unsupported name, rf, ss, st, pt⟩ =
        ([], some "unsupported systemd system")) := by
  refine ⟨rfl, rfl, rfl, rfl, by decide, by decide, by decide, fun _ => rfl, ?_, ?_⟩
  · intro e rf ss st pt name
    rfl
  · intro e a changes rf ss st pt name
    rfl

/-- C3: on a supported distribution, a missing unit file makes Find return
the not-found snapshot (Running explicitly false, Definition unset) and not
an error; Find returns an error only for a read failure other than
not-exist or for a failure of the service-manager status query. -/
theorem c3_find_absent (e : Service) (t : SystemTarget) (sp : String)
    (hsp : systemdSystemPathFor t.distro = Except.ok sp) :
    (t.readFile (pathJoin sp e.Name) = ReadResult.notExist →
      e.Find t = Except.ok ⟨e.Name, none, some false, none, none, none⟩) ∧
    (∀ msg, e.Find t = Except.error msg →
      (∃ m, t.readFile (pathJoin sp e.Name) = ReadResult.ioError m) ∨
      (∃ d m, t.readFile (pathJoin sp e.Name) = ReadResult.ok d ∧
        t.systemdStatus e.Name = Except.error m)) := by
  constructor
  · intro h
    simp only [Service.Find, hsp, h]
  · intro msg h
    simp only [Service.Find, hsp] at h
    cases hrf : t.readFile (pathJoin sp e.Name) with
    | ioError m => exact Or.inl ⟨m, rfl⟩
    | notExist => rw [hrf] at h; simp at h
    | ok d =>
      rw [hrf] at h
      cases hss : t.systemdStatus e.Name with
      | error m => exact Or.inr ⟨d, m, rfl, rfl⟩
      | ok props => rw [hss] at h; simp at h

/-- C3 witness: on the example target the kubelet unit file is absent and
Find returns the not-found snapshot. -/
theorem c3_find_absent_witness :
    Service.Find ⟨"kubelet.service", none, some true, none, none, none⟩ exampleTarget =
      Except.ok ⟨"kubelet.service", none, some false, none, none, none⟩ :=
  (c3_find_absent ⟨"kubelet.service", none, some true, none, none, none⟩ exampleTarget
    "/lib/systemd/system" rfl).1 rfl

/-- C4: when the unit file exists and the status query succeeds, Find maps
ActiveState active to Running true and everything else, including unknown
values, to Running false; it maps the two known WantedBy target lists to
Enabled true and everything else, including the empty string and unknown
values, to Enabled false. -/
theorem c4_find_state_mapping (e : Service) (t : SystemTarget) (sp d : String)
    (props : String → String)
    (hsp : systemdSystemPathFor t.distro = Except.ok sp)
    (hrf : t.readFile (pathJoin sp e.Name) = ReadResult.ok d)
    (hst : t.systemdStatus e.Name = Except.ok props) :
    e.Find t = Except.ok
      ⟨e.Name, some d, some (runningOfActiveState (props "ActiveState")),
        some (enabledOfWantedBy (props "WantedBy")), e.ManageState, e.SmartRestart⟩ ∧
    (∀ s, runningOfActiveState s = true ↔ s = "active") ∧
    (∀ w, enabledOfWantedBy w = true ↔
      w = "multi-user.target" ∨ w = "graphical.target multi-user.target") := by
  refine ⟨by simp only [Service.Find, hsp, hrf, hst], ?_, ?_⟩
  · intro s
    unfold runningOfActiveState
    split_ifs with h1 h2
    · simp [h1]
    · simp only [Bool.false_eq_true, false_iff]
      intro hc
      rw [hc] at h2
      rcases h2 with h2 | h2 <;> simp at h2
    · simp [h1]
  · intro w
    unfold enabledOfWantedBy
    split_ifs with h1 h2
    · simp only [Bool.false_eq_true, false_iff]
      intro hc
      rw [h1] at hc
      rcases hc with hc | hc <;> simp at hc
    · simp [h2]
    · simp only [Bool.false_eq_true, false_iff]
      exact h2

/-- C4 witness: on the example target with an existing unit file, an active,
multi-user.target service is reported Running true and Enabled true. -/
theorem c4_find_state_mapping_witness :
    Service.Find ⟨"kubelet.service", none, some true, none, some true, some true⟩
        exampleFoundTarget =
      Except.ok ⟨"kubelet.service", some "defn",
        some (runningOfActiveState (exampleFoundProps "ActiveState")),
        some (enabledOfWantedBy (exampleFoundProps "WantedBy")), some true, some true⟩ :=
  (c4_find_state_mapping ⟨"kubelet.service", none, some true, none, some true, some true⟩
    exampleFoundTarget "/lib/systemd/system" "defn" exampleFoundProps rfl rfl rfl).1

/-- C10: when the unit file exists, the actual snapshot carries the desired
own ManageState and SmartRestart values verbatim, so the change
computation can never flag those fields; and the smart-restart dependency
list always contains the path of the unit file itself beyond the parsed
EnvironmentFile and ExecStart entries. -/
theorem c10_no_drift_and_unit_dependency (e : Service) (t : SystemTarget) (sp d : String)
    (props : String → String)
    (hsp : systemdSystemPathFor t.distro = Except.ok sp)
    (hrf : t.readFile (pathJoin sp e.Name) = ReadResult.ok d)
    (hst : t.systemdStatus e.Name = Except.ok props) :
    (∃ actual, e.Find t = Except.ok actual ∧
      actual.ManageState = e.ManageState ∧ actual.SmartRestart = e.SmartRestart ∧
      (buildChanges actual e).ManageState = none ∧
      (buildChanges actual e).SmartRestart = none) ∧
    (∀ serviceName definition systemdSystemPath,
      pathJoin systemdSystemPath serviceName ∈
        smartDependencies serviceName definition systemdSystemPath ∧
      smartDependencies serviceName definition systemdSystemPath =
        getSystemdDependencies serviceName definition ++
          [pathJoin systemdSystemPath serviceName]) := by
  constructor
  · refine ⟨⟨e.Name, some d, some (runningOfActiveState (props "ActiveState")),
      some (enabledOfWantedBy (props "WantedBy")), e.ManageState, e.SmartRestart⟩,
      by simp only [Service.Find, hsp, hrf, hst], rfl, rfl, ?_, ?_⟩
    · simp [buildChanges]
    · simp [buildChanges]
  · intro serviceName definition systemdSystemPath
    exact ⟨by simp [smartDependencies], rfl⟩

/-- C10 witness: the invariants instantiated on the example target with an
existing unit file. -/
theorem c10_no_drift_and_unit_dependency_witness :
    (∃ actual,
      Service.Find ⟨"kubelet.service", none, some true, none, some true, some false⟩
          exampleFoundTarget = Except.ok actual ∧
      actual.ManageState = some true ∧ actual.SmartRestart = some false ∧
      (buildChanges actual
          ⟨"kubelet.service", none, some true, none, some true, some false⟩).ManageState =
        none ∧
      (buildChanges actual
          ⟨"kubelet.service", none, some true, none, some true, some false⟩).SmartRestart =
        none) ∧
    (∀ serviceName definition systemdSystemPath,
      pathJoin systemdSystemPath serviceName ∈
        smartDependencies serviceName definition systemdSystemPath ∧
      smartDependencies serviceName definition systemdSystemPath =
        getSystemdDependencies serviceName definition ++
          [pathJoin systemdSystemPath serviceName]) :=
  c10_no_drift_and_unit_dependency
    ⟨"kubelet.service", none, some true, none, some true, some false⟩
    exampleFoundTarget "/lib/systemd/system" "defn" exampleFoundProps rfl rfl rfl

/-- C9: the change computation flags Definition, Running and Enabled each
independently, exactly when actual and desired differ on that field, and
leaves a field unset when actual and desired agree on it; stated for
desired states whose three fields are populated, as they are after
InitDefaults. -/
theorem c9_changes_fields_independent (a e : Service)
    (hd : e.Definition ≠ none) (hr : e.Running ≠ none) (hen : e.Enabled ≠ none) :
    ((buildChanges a e).Definition = none ↔ a.Definition = e.Definition) ∧
    ((buildChanges a e).Running = none ↔ a.Running = e.Running) ∧
    ((buildChanges a e).Enabled = none ↔ a.Enabled = e.Enabled) := by
  unfold buildChanges
  refine ⟨?_, ?_, ?_⟩ <;> simp only []
  · split_ifs with h <;> simp [h, hd]
  · split_ifs with h <;> simp [h, hr]
  · split_ifs with h <;> simp [h, hen]

/-- C9 witness: a concrete pair differing on Enabled only is flagged on
Enabled and unflagged on Definition and Running. -/
theorem c9_changes_fields_independent_witness :
    ((buildChanges ⟨"s", some "d", some true, some true, none, none⟩
        ⟨"s", some "d", some true, some false, none, none⟩).Definition = none ↔
      (some "d" : Option String) = some "d") ∧
    ((buildChanges ⟨"s", some "d", some true, some true, none, none⟩
        ⟨"s", some "d", some true, some false, none, none⟩).Running = none ↔
      (some true : Option Bool) = some true) ∧
    ((buildChanges ⟨"s", some "d", some true, some true, none, none⟩
        ⟨"s", some "d", some true, some false, none, none⟩).Enabled = none ↔
      (some true : Option Bool) = some false) :=
  c9_changes_fields_independent
    ⟨"s", some "d", some true, some true, none, none⟩
    ⟨"s", some "d", some true, some false, none, none⟩
    (by decide) (by decide) (by decide)

/-- C2 counterexample: a file task whose BeforeServices names only another
service is not returned by GetDependencies, so the claim that every file
task in the set is returned fails. -/
theorem c2_getDependencies_counterexample :
    NodeupTask.file "f" ["kubelet.service"] ∈
      ([NodeupTask.file "f" ["kubelet.service"]] : List NodeupTask) ∧
    NodeupTask.file "f" ["kubelet.service"] ∉
      Service.GetDependencies ⟨"docker.service", none, none, none, none, none⟩
        [NodeupTask.file "f" ["kubelet.service"]] := by
  decide

/-- C2 (amended): GetDependencies returns every Package and user task of the
set, and every file task whose BeforeServices list is empty or names this
service; it never returns a Service or a PullImageTask; and when the task is
the kubelet service it additionally returns every LoadImageTask of the set. -/
theorem c2_getDependencies (s : Service) (tasks : List NodeupTask) :
    (∀ n, NodeupTask.package n ∈ tasks →
      NodeupTask.package n ∈ s.GetDependencies tasks) ∧
    (∀ n, NodeupTask.userTask n ∈ tasks →
      NodeupTask.userTask n ∈ s.GetDependencies tasks) ∧
    (∀ n bs, NodeupTask.file n bs ∈ tasks → (bs = [] ∨ s.Name ∈ bs) →
      NodeupTask.file n bs ∈ s.GetDependencies tasks) ∧
    (∀ n, NodeupTask.service n ∉ s.GetDependencies tasks) ∧
    (∀ n, NodeupTask.pullImageTask n ∉ s.GetDependencies tasks) ∧
    (s.Name = kubeletService → ∀ n, NodeupTask.loadImageTask n ∈ tasks →
      NodeupTask.loadImageTask n ∈ s.GetDependencies tasks) := by
  refine ⟨?_, ?_, ?_, ?_, ?_, ?_⟩
  · intro n hn
    exact mem_GetDependencies.mpr ⟨_, hn, by simp [Service.depsForTask]⟩
  · intro n hn
    exact mem_GetDependencies.mpr ⟨_, hn, by simp [Service.depsForTask]⟩
  · intro n bs hn hbs
    refine mem_GetDependencies.mpr ⟨_, hn, ?_⟩
    simp only [Service.depsForTask]
    rcases hbs with hbs | hbs
    · subst hbs
      simp
    · have hlen : bs.length > 0 := by
        cases bs with
        | nil => simp at hbs
        | cons hd tl => simp
      rw [if_pos hlen, mem_foldl_append]
      exact Or.inr ⟨s.Name, hbs, by simp⟩
  · intro n hn
    rcases mem_GetDependencies.mp hn with ⟨u, _, hu⟩
    have := mem_depsForTask hu
    subst this
    simp [Service.depsForTask] at hu
  · intro n hn
    rcases mem_GetDependencies.mp hn with ⟨u, _, hu⟩
    have := mem_depsForTask hu
    subst this
    simp [Service.depsForTask] at hu
  · intro hname n hn
    exact mem_GetDependencies.mpr ⟨_, hn, by simp [Service.depsForTask, hname]⟩

/-- C2 witness: the kubelet service keeps a package, a free file task and a
load-image task of a concrete set, and drops the service and pull tasks. -/
theorem c2_getDependencies_witness :
    NodeupTask.package "containerd" ∈
      Service.GetDependencies ⟨"kubelet.service", none, none, none, none, none⟩
        [NodeupTask.package "containerd", NodeupTask.service "docker.service",
         NodeupTask.loadImageTask "img"] :=
  (c2_getDependencies ⟨"kubelet.service", none, none, none, none, none⟩
      [NodeupTask.package "containerd", NodeupTask.service "docker.service",
       NodeupTask.loadImageTask "img"]).1 "containerd" (by decide)

/-- Computation rule for RenderLocal once path resolution has succeeded. -/
theorem RenderLocal_eq (e : Service) (a : Option Service) (changes : Service)
    (t : SystemTarget) (sp : String)
    (hsp : systemdSystemPathFor t.distro = Except.ok sp) :
    Service.RenderLocal e a changes t =
      match smartRestartAction e a sp
        (if changes.Running ≠ none ∧ valueOfB e.ManageState = true then
          if valueOfB e.Running = true then "restart" else "stop"
         else "") t with
      | .error msg =>
        ((if changes.Definition ≠ none then
            [Effect.writeFile (pathJoin sp e.Name) (valueOfS e.Definition),
             Effect.daemonReload]
          else []), some msg)
      | .ok action2 =>
        ((if changes.Definition ≠ none then
            [Effect.writeFile (pathJoin sp e.Name) (valueOfS e.Definition),
             Effect.daemonReload]
          else []) ++
         (if action2 ≠ "" ∧ valueOfB e.ManageState = true then
            [Effect.systemctl action2 e.Name]
          else []) ++
         (if changes.Enabled ≠ none ∧ valueOfB e.ManageState = true then
            [if valueOfB e.Enabled = true then Effect.enable e.Name
             else Effect.disable e.Name]
          else []), none) := by
  rcases t with ⟨dist, rf, ss, st, pt⟩
  cases dist with
  | debianFamily =>
    simp only [systemdSystemPathFor, Except.ok.injEq] at hsp
    subst hsp; rfl
  | rhelFamily =>
    simp only [systemdSystemPathFor, Except.ok.injEq] at hsp
    subst hsp; rfl
  | flatcar =>
    simp only [systemdSystemPathFor, Except.ok.injEq] at hsp
    subst hsp; rfl
  | containerOS =>
    simp only [systemdSystemPathFor, Except.ok.injEq] at hsp
    subst hsp; rfl
  | unknown => simp [systemdSystemPathFor] at hsp
  | unsupported name => simp [systemdSystemPathFor] at hsp

/-- C7: with ManageState false, RenderLocal performs neither a run-state
action (restart/stop) nor an enablement action; at most the unit-file write
and the daemon-reload occur. -/
theorem c7_frame_unmanaged (e : Service) (a : Option Service) (changes : Service)
    (t : SystemTarget) (h : valueOfB e.ManageState = false) :
    ∀ eff ∈ (Service.RenderLocal e a changes t).1,
      (∃ p c, eff = Effect.writeFile p c) ∨ eff = Effect.daemonReload := by
  intro eff heff
  cases hsp : systemdSystemPathFor t.distro with
  | error msg =>
    unfold Service.RenderLocal at heff
    rw [hsp] at heff
    simp at heff
  | ok sp =>
    rw [RenderLocal_eq e a changes t sp hsp] at heff
    have hsmart : ∀ act, smartRestartAction e a sp act t = Except.ok act := by
      intro act
      unfold smartRestartAction
      rw [if_neg]
      rintro ⟨hm, _⟩
      rw [h] at hm
      exact Bool.false_ne_true hm
    rw [hsmart] at heff
    simp only [h, Bool.false_eq_true, and_false, if_false, List.append_nil] at heff
    split at heff
    · simp only [List.mem_cons, List.not_mem_nil, or_false] at heff
      rcases heff with heff | heff
      · exact Or.inl ⟨_, _, heff⟩
      · exact Or.inr heff
    · simp at heff

/-- C7 witness: applying the frame theorem to a concrete unmanaged service
whose definition changed, at the daemon-reload effect it performs. -/
theorem c7_frame_unmanaged_witness :
    (∃ p c, Effect.daemonReload = Effect.writeFile p c) ∨
      Effect.daemonReload = Effect.daemonReload :=
  c7_frame_unmanaged ⟨"foo.service", some "x", some true, some true, none, none⟩ none
    ⟨"foo.service", some "x", some true, some true, none, none⟩ exampleTarget
    (by decide) Effect.daemonReload (by decide)

/-- C8 counterexample: with only Enabled set in Changes but ManageState
false, RenderLocal performs no systemctl-class action at all, so it does not
perform exactly one. -/
theorem c8_enable_only_counterexample :
    ¬ ((Service.RenderLocal ⟨"foo.service", none, none, some true, some false, none⟩ none
          ⟨"foo.service", none, none, some true, none, none⟩ exampleTarget).1.countP
        Effect.isSystemctlClass = 1) := by
  decide

/-- C8 (amended): when Changes has only Enabled set, ManageState is true and
the smart-restart heuristic schedules no action, RenderLocal performs
exactly one systemctl-class action, the enable or disable matching the
desired Enabled, and no restart or stop. -/
theorem c8_enable_only (e : Service) (a : Option Service) (changes : Service)
    (t : SystemTarget) (sp : String)
    (hsp : systemdSystemPathFor t.distro = Except.ok sp)
    (hE : changes.Enabled ≠ none) (hR : changes.Running = none)
    (hD : changes.Definition = none) (hM : valueOfB e.ManageState = true)
    (hS : smartRestartAction e a sp "" t = Except.ok "") :
    (Service.RenderLocal e a changes t).1 =
      [if valueOfB e.Enabled = true then Effect.enable e.Name
       else Effect.disable e.Name] ∧
    (Service.RenderLocal e a changes t).1.countP Effect.isSystemctlClass = 1 ∧
    (∀ act svc, Effect.systemctl act svc ∉ (Service.RenderLocal e a changes t).1) := by
  have hact : (if changes.Running ≠ none ∧ valueOfB e.ManageState = true then
      if valueOfB e.Running = true then "restart" else "stop"
    else "") = "" := by
    simp [hR]
  have key : (Service.RenderLocal e a changes t).1 =
      [if valueOfB e.Enabled = true then Effect.enable e.Name
       else Effect.disable e.Name] := by
    rw [RenderLocal_eq e a changes t sp hsp, hact, hS]
    simp [hD, hE, hM]
  refine ⟨key, ?_, ?_⟩
  · rw [key]
    cases hv : valueOfB e.Enabled <;> simp [hv, Effect.isSystemctlClass]
  · intro act svc hmem
    rw [key] at hmem
    cases hv : valueOfB e.Enabled <;> rw [hv] at hmem <;> simp at hmem

/-- C8 witness: a managed service with SmartRestart unset and only Enabled
changed is enabled by exactly one systemctl-class action. -/
theorem c8_enable_only_witness :
    (Service.RenderLocal ⟨"foo.service", none, none, some true, some true, none⟩ none
        ⟨"foo.service", none, none, some true, none, none⟩ exampleTarget).1 =
      [if valueOfB (some true) = true then Effect.enable "foo.service"
       else Effect.disable "foo.service"] ∧
    (Service.RenderLocal ⟨"foo.service", none, none, some true, some true, none⟩ none
        ⟨"foo.service", none, none, some true, none, none⟩ exampleTarget).1.countP
      Effect.isSystemctlClass = 1 ∧
    (∀ act svc, Effect.systemctl act svc ∉
      (Service.RenderLocal ⟨"foo.service", none, none, some true, some true, none⟩ none
        ⟨"foo.service", none, none, some true, none, none⟩ exampleTarget).1) :=
  c8_enable_only ⟨"foo.service", none, none, some true, some true, none⟩ none
    ⟨"foo.service", none, none, some true, none, none⟩ exampleTarget
    "/lib/systemd/system" rfl (by decide) rfl rfl (by decide) rfl

/-- Computation rule for the smart-restart block when its preconditions hold
and the start timestamp is recorded and parsable. -/
theorem smartRestartAction_eq (e : Service) (a : Option Service) (sp : String)
    (t : SystemTarget) (props : String → String) (sa : String) (T : Nat)
    (hM : valueOfB e.ManageState = true) (hS : valueOfB e.SmartRestart = true)
    (hR : valueOfB e.Running = true) (hdef : valueOfS e.Definition ≠ "")
    (hst : t.systemdStatus e.Name = Except.ok props)
    (hsa : props "ExecMainStartTimestamp" = sa) (hsane : sa ≠ "")
    (hpt : t.parseTime sa = some T) :
    smartRestartAction e a sp "" t =
      Except.ok
        (if T < newestMtime t (smartDependencies e.Name (valueOfS e.Definition) sp) then
          "restart"
         else "") := by
  unfold smartRestartAction
  simp only [hM, hS, hR, and_self, if_true, ne_eq, hdef, if_false, ite_false, hst, hsa,
    hsane, hpt, not_false_eq_true, and_true, true_and, if_pos]
  by_cases hN : newestMtime t (smartDependencies e.Name (valueOfS e.Definition) sp) = 0
  · simp [hN]
  · simp only [hN, not_false_eq_true, if_true]
    by_cases hT : T < newestMtime t (smartDependencies e.Name (valueOfS e.Definition) sp) <;>
      simp [hT]

/-- C1 counterexample: the only dependency the claim names (the first
ExecStart token, /bin/k) has modification time 5, at or before the parsed
start timestamp 10, yet RenderLocal requests a restart, because the unit
file itself (modification time 20) is also treated as a dependency. -/
theorem c1_smart_restart_counterexample :
    getSystemdDependencies "kubelet.service" "ExecStart=/bin/k x" = ["/bin/k"] ∧
    exampleSmartTarget.stat "/bin/k" = some 5 ∧
    exampleSmartTarget.parseTime "ts" = some 10 ∧
    ¬ (10 < 5) ∧
    Effect.systemctl "restart" "kubelet.service" ∈
      (Service.RenderLocal
        ⟨"kubelet.service", some "ExecStart=/bin/k x", some true, none, some true, some true⟩
        none ⟨"kubelet.service", none, none, none, none, none⟩ exampleSmartTarget).1 := by
  decide

/-- C1 (amended): for a managed service with SmartRestart, desired Running
true, no pending run-state change, a non-empty desired definition and a
recorded, parsable start timestamp, RenderLocal requests a restart exactly
when the newest modification time among the file-level dependencies,
which comprise the EnvironmentFile values, the first ExecStart tokens and
the path of the unit file itself, is strictly after the start timestamp. -/
theorem c1_smart_restart (e : Service) (a : Option Service) (changes : Service)
    (t : SystemTarget) (sp : String) (props : String → String) (sa : String) (T : Nat)
    (hsp : systemdSystemPathFor t.distro = Except.ok sp)
    (hM : valueOfB e.ManageState = true) (hS : valueOfB e.SmartRestart = true)
    (hR : valueOfB e.Running = true) (hCR : changes.Running = none)
    (hdef : valueOfS e.Definition ≠ "")
    (hst : t.systemdStatus e.Name = Except.ok props)
    (hsa : props "ExecMainStartTimestamp" = sa) (hsane : sa ≠ "")
    (hpt : t.parseTime sa = some T) :
    Effect.systemctl "restart" e.Name ∈ (Service.RenderLocal e a changes t).1 ↔
      T < newestMtime t (smartDependencies e.Name (valueOfS e.Definition) sp) := by
  have hact : (if changes.Running ≠ none ∧ valueOfB e.ManageState = true then
      if valueOfB e.Running = true then "restart" else "stop"
    else "") = "" := by
    simp [hCR]
  rw [RenderLocal_eq e a changes t sp hsp, hact,
    smartRestartAction_eq e a sp t props sa T hM hS hR hdef hst hsa hsane hpt]
  by_cases hT : T < newestMtime t (smartDependencies e.Name (valueOfS e.Definition) sp)
  · simp [hT, hM]
  · simp only [hT, if_false, ite_false, iff_false]
    intro hmem
    simp only [ne_eq, not_true_eq_false, false_and, if_false, List.append_nil,
      List.mem_append] at hmem
    rcases hmem with hmem | hmem
    · split at hmem
      · simp at hmem
      · simp at hmem
    · split at hmem
      · split at hmem <;> simp at hmem
      · simp at hmem

/-- C1 witness: on the example smart target the restart fires and the
newest dependency time 20 indeed exceeds the parsed start time 10. -/
theorem c1_smart_restart_witness :
    Effect.systemctl "restart" "kubelet.service" ∈
      (Service.RenderLocal
        ⟨"kubelet.service", some "ExecStart=/bin/k x", some true, none, some true, some true⟩
        none ⟨"kubelet.service", none, none, none, none, none⟩ exampleSmartTarget).1 ↔
      10 < newestMtime exampleSmartTarget
        (smartDependencies "kubelet.service"
          (valueOfS (some "ExecStart=/bin/k x")) "/lib/systemd/system") :=
  c1_smart_restart
    ⟨"kubelet.service", some "ExecStart=/bin/k x", some true, none, some true, some true⟩
    none ⟨"kubelet.service", none, none, none, none, none⟩ exampleSmartTarget
    "/lib/systemd/system" exampleSmartProps "ts" 10 rfl (by decide) (by decide) (by decide)
    rfl (by decide) rfl rfl (by decide) rfl

end Nodetasks
